import Mathlib

/-!
Verification development for the `webpack-static-pages-plugin` repository
(single source file `src/index.js`). The definitions below are a shallow
embedding of that file: the sandboxed script evaluator
(`evaluateCompilationResult`, lines 125-160), the per-compilation
`processAssets` pipeline (lines 38-95), and the `afterCompile` dependency
recording (lines 109-116). Machinery that the plugin merely calls
(the Handlebars template engine) is modelled at its interface, as noted
on the corresponding definitions.
-/

set_option autoImplicit false

namespace StaticPages

/-- A JavaScript runtime error: either `new Error(msg)` thrown explicitly by
the plugin or a script, or a `TypeError` raised by the runtime (e.g. property
access on `null`). -/
inductive JsError where
  | error (msg : String)
  | typeError (msg : String)
deriving Repr, DecidableEq

/-- The JavaScript values the evaluator manipulates. An object carries its
`__esModule` flag and, when `hasDefault` is true, the value of its own
`default` property (`dflt`); `typeof` classifies `vfun` as `"function"`,
`vobj` and `vnull` as `"object"`. The payload of `vfun` is an identifier
whose call behaviour is supplied separately (see `callFn`). -/
inductive JSValue where
  | vfun (id : Nat)
  | vobj (esModule : Bool) (hasDefault : Bool) (dflt : JSValue)
  | vnull
  | vundef
  | vbool (b : Bool)
  | vnum (n : Int)
  | vstr (s : String)
deriving Repr, DecidableEq

/-- JavaScript truthiness of a value. -/
def truthy : JSValue → Bool
  | JSValue.vfun _ => true
  | JSValue.vobj _ _ _ => true
  | JSValue.vnull => false
  | JSValue.vundef => false
  | JSValue.vbool b => b
  | JSValue.vnum n => n != 0
  | JSValue.vstr s => s != ""

/-- `typeof v === 'function'`. -/
def isCallable : JSValue → Bool
  | JSValue.vfun _ => true
  | _ => false

/-- First-match association-list lookup. Registration of Handlebars
partials, emission of compilation assets and property writes to the
sandbox exports object all prepend, so the first match is the most recent
entry. -/
def alookup {β : Type} (k : String) : List (String × β) → Option β
  | [] => none
  | (k', v) :: rest => if k' = k then some v else alookup k rest

/-- Statements of a page script, as far as the evaluator can observe them:
an assignment `module.exports = v`; an assignment `exports.k = v`, which
mutates the object bound to the sandbox's `exports` name — the evaluator
host module's own exports object, src/index.js line 138; an expression
statement reading that `exports` object back (completion value: the object
in its current state); an expression statement reading `module.exports`
back; any other expression statement with a completion value `v` that does
not depend on those bindings; or a `throw`. -/
inductive Stmt where
  | assignModuleExports (v : JSValue)
  | assignExportsProp (k : String) (v : JSValue)
  | exprExports
  | exprModuleExports
  | expr (v : JSValue)
  | throwErr (e : JsError)
deriving Repr, DecidableEq

/-- The mutable state a script can reach through the vm context:
`moduleExports` is `mod.exports` for the fresh `new Module(file)` of
src/index.js line 131, `hostExports` the property list of the object bound
to `exports` (line 138). -/
structure ModState where
  moduleExports : JSValue
  hostExports : List (String × JSValue)
deriving Repr, DecidableEq

/-- The `vobj` view of the sandbox exports object in a given property
state. The evaluator's default-unwrap (src/index.js lines 155-157) reads
only the object's `__esModule` (for its truthiness) and `default`
(presence and value) properties, so the view records exactly those; a
prepending write makes `alookup` return the most recent value of a
property. -/
def reifyExports (e : List (String × JSValue)) : JSValue :=
  JSValue.vobj
    (match alookup "__esModule" e with
     | some v => truthy v
     | none => false)
    (match alookup "default" e with
     | some _ => true
     | none => false)
    ((alookup "default" e).getD JSValue.vundef)

/-- One step of script execution: returns the statement's completion value
and the updated state. Reading `exports` as an expression yields the
object in its current property state — the evaluator inspects the
completion value only after the script has finished, and no statement runs
after the last one, so the state at the read is the state the evaluator
sees. -/
def runStmt : Stmt → ModState → Except JsError (JSValue × ModState)
  | Stmt.assignModuleExports v, s => Except.ok (v, { s with moduleExports := v })
  | Stmt.assignExportsProp k v, s =>
      Except.ok (v, { s with hostExports := (k, v) :: s.hostExports })
  | Stmt.exprExports, s => Except.ok (reifyExports s.hostExports, s)
  | Stmt.exprModuleExports, s => Except.ok (s.moduleExports, s)
  | Stmt.expr v, s => Except.ok (v, s)
  | Stmt.throwErr e, _ => Except.error e

/-- Runs the statements in order, threading the completion value (which
starts as `undefined`): `vm.Script#runInContext` returns the completion
value of the script, i.e. of its last executed statement. -/
def runScriptFrom : List Stmt → JSValue → ModState → Except JsError (JSValue × ModState)
  | [], v, s => Except.ok (v, s)
  | st :: rest, _, s =>
      match runStmt st s with
      | Except.error e => Except.error e
      | Except.ok (v, s') => runScriptFrom rest v s'

/-- Runs a whole script from the initial completion value `undefined`. -/
def runScript (script : List Stmt) (s : ModState) : Except JsError (JSValue × ModState) :=
  runScriptFrom script JSValue.vundef s

/-- The fresh exports object of `new Module(file)`: a plain empty object. -/
def initExports : JSValue := JSValue.vobj false false JSValue.vundef

/-- The default-export unwrap of src/index.js lines 155-157:
`typeof newSource === 'object' && newSource.__esModule && newSource.default`.
`typeof null === 'object'`, so a `null` result reaches the property access
`newSource.__esModule` and raises a `TypeError`. -/
def unwrapDefault : JSValue → Except JsError JSValue
  | JSValue.vnull =>
      Except.error (JsError.typeError "Cannot read properties of null (reading __esModule)")
  | JSValue.vobj es hd d =>
      let dv := if hd then d else JSValue.vundef
      if es && truthy dv then Except.ok dv else Except.ok (JSValue.vobj es hd d)
  | v => Except.ok v

/-- `evaluateCompilationResult` (src/index.js lines 125-160), parametrised by
the initial property list of the host `exports` object that line 138 places
in the vm context. The file's source text is given as the already-read
`script` (the read at line 130 is modelled as always succeeding). -/
def evaluateCompilationResultWith (hostEx : List (String × JSValue)) (file : String)
    (script : List Stmt) : Except JsError JSValue :=
  if file = "" then Except.error (JsError.error "The file is empty")
  else
    match runScript script (ModState.mk initExports hostEx) with
    | Except.error e => Except.error e
    | Except.ok (v, _) =>
      match unwrapDefault v with
      | Except.error e => Except.error e
      | Except.ok u =>
        if isCallable u then Except.ok u
        else Except.error (JsError.error "Source not produce an HTML")

/-- `evaluateCompilationResult` as called by the plugin. -/
def evaluateCompilationResult (file : String) (script : List Stmt) : Except JsError JSValue :=
  evaluateCompilationResultWith [] file script

/-- The value of `mod.exports` after the script has run — what the script
assigned to its module exports (the fresh object if it never assigned). -/
def moduleExportsAfter (script : List Stmt) : Except JsError JSValue :=
  match runScript script (ModState.mk initExports []) with
  | Except.error e => Except.error e
  | Except.ok (_, s) => Except.ok s.moduleExports

/-- String prefix test over the character list (JavaScript
`String.prototype.startsWith`). -/
def strStartsWith (s pre : String) : Bool := pre.data.isPrefixOf s.data

/-- String suffix test over the character list. -/
def strEndsWith (s suff : String) : Bool := suff.data.isSuffixOf s.data

/-- The regex `/^\.\.?\//` of src/index.js line 141: a dot, an optional
second dot, then a slash, anchored at the start. -/
def regexRelativeMatch (s : String) : Bool :=
  match s.data with
  | c1 :: c2 :: rest =>
      c1 == '.' &&
        (c2 == '/' ||
          (c2 == '.' && (match rest with | c3 :: _ => c3 == '/' | [] => false)))
  | _ => false

/-- The `require` function installed in the vm context (src/index.js lines
139-146): a specifier matching `/^\.\.?\//` is rewritten to
`dirname + '/' + specifier` before being handed to `mod.require`; any other
specifier is handed over unchanged. `loader` stands for `mod.require`,
taking the module identity (the page file path) and the resolved specifier. -/
def sandboxRequire (loader : String → String → JSValue) (modId : String) (dirname : String)
    (spec : String) : JSValue :=
  if regexRelativeMatch spec then loader modId (dirname ++ "/" ++ spec)
  else loader modId spec

/-- Replaces every `exports.k = v` statement by a plain expression statement
with the same completion value, i.e. forgets the mutation of the host
exports object while keeping control flow and completion values. -/
def eraseExportsWrites (script : List Stmt) : List Stmt :=
  script.map (fun st =>
    match st with
    | Stmt.assignExportsProp _ v => Stmt.expr v
    | st => st)

/-- Whether a statement reads the sandbox `exports` object back. -/
def isExportsRead : Stmt → Bool
  | Stmt.exprExports => true
  | _ => false

/-- Whether any statement of the script reads the `exports` object back —
the channel through which `exports` assignments can reach the completion
value the evaluator extracts. -/
def readsExports : List Stmt → Bool
  | [] => false
  | st :: rest => isExportsRead st || readsExports rest

/-- The transpiled-ES-module page script
`exports.__esModule = true; exports.default = f; exports;`: it publishes
a callable through the sandbox `exports` object and reads that object back
as its completion value. -/
def esmScript (f : Nat) : List Stmt :=
  [Stmt.assignExportsProp "__esModule" (JSValue.vbool true),
   Stmt.assignExportsProp "default" (JSValue.vfun f),
   Stmt.exprExports]

/-! ## The compilation-pass pipeline (src/index.js `apply`, lines 25-118) -/

/-- The plugin options object (`options.options` after the schema check of
the constructor): only `concurrency` matters to the pipeline. -/
structure Options where
  concurrency : Option Nat
deriving Repr, DecidableEq

/-- Plugin configuration (constructor, src/index.js lines 13-23). -/
structure Config where
  componentsDir : String
  pagesDir : String
  destDir : String
  options : Options
deriving Repr, DecidableEq

/-- `this.options.concurrency || 100` (src/index.js line 27): an absent
option — and, `||` being a truthiness test, an explicit `0` — falls back
to 100. -/
def concurrencyCap (o : Options) : Nat :=
  match o.concurrency with
  | none => 100
  | some n => if n = 0 then 100 else n

/-- The `p-limit` limiter: its cap and the list of tasks submitted through
it. `pLimit(n)` creates it with no submissions; the pipeline records each
`limit(task)` call in `submitted` — src/index.js never makes one. -/
structure Limiter where
  cap : Nat
  submitted : List String
deriving Repr, DecidableEq

/-- `pLimit(n)` (src/index.js line 27). -/
def pLimit (n : Nat) : Limiter := Limiter.mk n []

/-- `path.resolve(dir, file)` for an absolute `dir` and a relative `file`. -/
def resolve (dir file : String) : String := dir ++ "/" ++ file

/-- The page-data object a page function returns, as the template sees it:
a property list of string values. The reserved `component` key names the
fragment to render. -/
def PageData : Type := List (String × String)

/-- The semantics of the callable values: what `fn()` does for the callable
with a given identifier — return a page-data object or throw. -/
def FnSem : Type := Nat → Except JsError PageData

/-- The files on disk as the two `glob.sync` calls would enumerate them:
every file under the components root (relative path and UTF-8 content) and
every file under the pages root (relative path and parsed script). -/
structure FS where
  componentsFiles : List (String × String)
  pagesFiles : List (String × List Stmt)

/-- `glob.sync('**/*.js', { cwd: pagesDir })`: the page-root files whose
names end in `.js`, in enumeration order. -/
def globJs (files : List (String × List Stmt)) : List (String × List Stmt) :=
  files.filter (fun f => strEndsWith f.1 ".js")

/-- `glob.sync('**/*.hbs', { cwd: componentsDir })`. -/
def globHbs (files : List (String × String)) : List (String × String) :=
  files.filter (fun f => strEndsWith f.1 ".hbs")

/-- `file.match(/^[^/]+/)` at src/index.js line 46: the leading run of
non-slash characters, `none` when the match is `null` (empty run). -/
def matchLeadingNonSlash (s : String) : Option String :=
  let t := s.data.takeWhile (fun c => !(c == '/'))
  if t.isEmpty then none else some (String.mk t)

/-- `file.match(/^[^.]+/)` at src/index.js line 57: the leading run of
non-dot characters, `none` when the match is `null`. -/
def matchLeadingNonDot (s : String) : Option String :=
  let t := s.data.takeWhile (fun c => !(c == '.'))
  if t.isEmpty then none else some (String.mk t)

/-- The component-loading loop (src/index.js lines 42-49): each globbed
`.hbs` file with non-empty content is registered as a Handlebars partial
under its leading path segment (registrations prepend, so a later
registration of the same name wins on `alookup`). A `null` match — a file
name with an empty leading segment, which `glob` never produces — would
crash the pass at `match[0]`; that is kept as an error. -/
def registerComponents : List (String × String) → List (String × String) →
    Except JsError (List (String × String))
  | [], reg => Except.ok reg
  | (file, content) :: rest, reg =>
    if content = "" then registerComponents rest reg
    else
      match matchLeadingNonSlash file with
      | none => Except.error (JsError.typeError "Cannot read properties of null (reading 0)")
      | some name => registerComponents rest ((name, content) :: reg)

def lcurly : Char := Char.ofNat 123
def rcurly : Char := Char.ofNat 125

/-- Modelled from the spec: the template-engine collaborator's rendering of
a compiled template against data (§6 `compile(templateSource) -> (data) ->
htmlString`), for the mustache-substitution forms the partials of this
repository use: each `\x7b\x7bname\x7d\x7d` is replaced by the data value
registered under `name` (empty when absent). Structural recursion on a
character-count fuel. -/
def renderChars (data : List (String × String)) : Nat → List Char → List Char
  | 0, cs => cs
  | _ + 1, [] => []
  | fuel + 1, c :: cs =>
    match cs with
    | [] => [c]
    | c2 :: cs2 =>
      if c == lcurly && c2 == lcurly then
        let name := cs2.takeWhile (fun d => !(d == rcurly))
        let rest := (cs2.dropWhile (fun d => !(d == rcurly))).drop 2
        ((alookup (String.mk name) data).getD "").data ++ renderChars data fuel rest
      else c :: renderChars data fuel cs

/-- Modelled from the spec: mustache substitution over a whole template. -/
def renderMustache (data : List (String × String)) (template : String) : String :=
  String.mk (renderChars data template.data.length template.data)

/-- Modelled from the spec: the template-engine collaborator applied to the
ad-hoc template built at src/index.js line 72,
`Handlebars.compile('\x7b\x7b> ' + pageData.component + '\x7d\x7d')(pageData)`:
resolve the partial named by the data's `component` value (`undefined` when
the key is absent, as JavaScript stringifies it) in the registry, failing
like Handlebars when it is missing, then render its content against the
data. -/
def renderComponentTemplate (reg : List (String × String)) (data : PageData) :
    Except JsError String :=
  let name := (alookup "component" data).getD "undefined"
  match alookup name reg with
  | none => Except.error (JsError.error ("The partial " ++ name ++ " could not be found"))
  | some content => Except.ok (renderMustache data content)

/-- An element of the `pages` array (src/index.js lines 58-61). -/
structure PageEntry where
  name : String
  fn : JSValue
deriving Repr, DecidableEq

/-- An element of the `pagesRend` array (src/index.js lines 73-77). -/
structure Rendered where
  filename : String
  absoluteFilename : String
  html : String
deriving Repr, DecidableEq

/-- Calling `page.fn()`: the evaluator only ever stores callables in
`page.fn`, whose behaviour `fnSem` gives. -/
def callFn (fnSem : FnSem) : JSValue → Except JsError PageData
  | JSValue.vfun id => fnSem id
  | _ => Except.error (JsError.typeError "page.fn is not a function")

/-- The body of the `pagesRend` map for one non-null page (src/index.js
lines 71-77): call the page function, compile and render the ad-hoc
template, produce the output pair. Nothing here is guarded by a
try/catch. -/
def buildPage (fnSem : FnSem) (reg : List (String × String)) (destDir : String)
    (page : PageEntry) : Except JsError Rendered :=
  match callFn fnSem page.fn with
  | Except.error e => Except.error e
  | Except.ok pageData =>
    match renderComponentTemplate reg pageData with
    | Except.error e => Except.error e
    | Except.ok html =>
      Except.ok (Rendered.mk (page.name ++ ".html")
        (resolve destDir page.name ++ ".html") html)

/-- The `pagesRend` map (src/index.js lines 69-78): left to right; a `null`
entry stays `null`; the first exception a `buildPage` raises escapes the
map — and, the map not being wrapped in any try/catch, the whole
`processAssets` handler. -/
def renderPages (fnSem : FnSem) (reg : List (String × String)) (destDir : String) :
    List (Option PageEntry) → Except JsError (List (Option Rendered))
  | [] => Except.ok []
  | none :: rest =>
    match renderPages fnSem reg destDir rest with
    | Except.error e => Except.error e
    | Except.ok l => Except.ok (none :: l)
  | some page :: rest =>
    match buildPage fnSem reg destDir page with
    | Except.error e => Except.error e
    | Except.ok r =>
      match renderPages fnSem reg destDir rest with
      | Except.error e => Except.error e
      | Except.ok l => Except.ok (some r :: l)

/-- The body of the `pages` map for one globbed file (src/index.js lines
52-66): a relative path starting with `_` is skipped; otherwise the file is
evaluated inside the try block, any exception being logged (second
component) with the file yielding `null`; on success the entry pairs the
leading non-dot run of the relative path with the callable. -/
def processPageFile (pagesDir : String) (f : String × List Stmt) :
    Option PageEntry × Option (String × JsError) :=
  if strStartsWith f.1 "_" then (none, none)
  else
    match evaluateCompilationResult (resolve pagesDir f.1) f.2 with
    | Except.error e => (none, some (f.1, e))
    | Except.ok v =>
      match matchLeadingNonDot f.1 with
      | none => (none, some (f.1, JsError.typeError "Cannot read properties of null (reading 0)"))
      | some nm => (some (PageEntry.mk nm v), none)

/-- The `pages` map over all globbed page files, together with the error
log the catch block produces. -/
def readPages (pagesDir : String) (files : List (String × List Stmt)) :
    List (Option PageEntry) × List (String × JsError) :=
  (files.map (fun f => (processPageFile pagesDir f).1),
   files.filterMap (fun f => (processPageFile pagesDir f).2))

/-- Instrumentation of src/index.js line 56: the relative paths of the
files on which `evaluateCompilationResult` is invoked — every globbed page
file except the underscore-skipped ones. -/
def evaluatedFiles (files : List (String × List Stmt)) : List String :=
  (files.filter (fun f => !(strStartsWith f.1 "_"))).map (fun f => f.1)

/-- A compilation asset: content and the `created` flag of its asset info
(`false` for assets that were already in the compilation). -/
structure Asset where
  content : String
  created : Bool
deriving Repr, DecidableEq

/-- The write-down loop (src/index.js lines 81-90): for each non-null
rendered page, if `compilation.getAsset(filename)` finds an asset the page
is skipped; otherwise `emitAsset` adds the new asset with info
`created = true`. -/
def commitPages : List (Option Rendered) → List (String × Asset) → List (String × Asset)
  | [], assets => assets
  | none :: rest, assets => commitPages rest assets
  | some p :: rest, assets =>
    match alookup p.filename assets with
    | some _ => commitPages rest assets
    | none => commitPages rest ((p.filename, Asset.mk p.html true) :: assets)

/-- The observable outcome of one `processAssets` pass that runs to its
`callback()` (src/index.js lines 38-95). -/
structure PassResult where
  limiterCap : Nat
  limiterSubmitted : List String
  hbRegistry : List (String × String)
  errorLog : List (String × JsError)
  assets : List (String × Asset)
  callbackFired : Bool
deriving Repr, DecidableEq

/-- One `processAssets` pass. A thrown exception that no catch block stops
(component registration on a degenerate name, or any `buildPage` failure)
rejects the async handler: `callback()` on line 94 is never reached, which
`Except.error` models. -/
def processAssets (cfg : Config) (fs : FS) (fnSem : FnSem)
    (initialAssets : List (String × Asset)) : Except JsError PassResult :=
  let limit := pLimit (concurrencyCap cfg.options)
  match registerComponents (globHbs fs.componentsFiles) [] with
  | Except.error e => Except.error e
  | Except.ok reg =>
    let rp := readPages cfg.pagesDir (globJs fs.pagesFiles)
    match renderPages fnSem reg cfg.destDir rp.1 with
    | Except.error e => Except.error e
    | Except.ok rend =>
      Except.ok (PassResult.mk limit.cap limit.submitted reg rp.2
        (commitPages rend initialAssets) true)

/-- The `afterCompile` hook (src/index.js lines 109-116): the absolute
paths of the globbed `.js` files under the pages root followed by those of
the globbed `.hbs` files under the components root. -/
def recordDependencies (cfg : Config) (fs : FS) : List String :=
  (globJs fs.pagesFiles).map (fun f => resolve cfg.pagesDir f.1)
    ++ (globHbs fs.componentsFiles).map (fun f => resolve cfg.componentsDir f.1)

/-! ## Helper lemmas -/

theorem runScriptFrom_append (l₁ : List Stmt) :
    ∀ (l₂ : List Stmt) (v : JSValue) (s : ModState),
      runScriptFrom (l₁ ++ l₂) v s
        = match runScriptFrom l₁ v s with
          | Except.error e => Except.error e
          | Except.ok (v', s') => runScriptFrom l₂ v' s' := by
  induction l₁ with
  | nil => intro l₂ v s; rfl
  | cons st rest ih =>
    intro l₂ v s
    simp only [List.cons_append, runScriptFrom]
    rcases hst : runStmt st s with e | ⟨v', s'⟩
    · rfl
    · exact ih l₂ v' s'

/-- The part of a run that `evaluateCompilationResult` and
`moduleExportsAfter` can observe: the error or the completion value
together with the module exports, the host exports dropped. -/
def obsRun (r : Except JsError (JSValue × ModState)) : Except JsError (JSValue × JSValue) :=
  match r with
  | Except.error e => Except.error e
  | Except.ok (v, s) => Except.ok (v, s.moduleExports)

theorem readsExports_cons_false {st : Stmt} {rest : List Stmt}
    (h : readsExports (st :: rest) = false) :
    isExportsRead st = false ∧ readsExports rest = false := by
  simp only [readsExports] at h
  constructor
  · cases hq : isExportsRead st
    · rfl
    · rw [hq] at h; simp at h
  · cases hq : readsExports rest
    · rfl
    · rw [hq] at h; simp at h

theorem runScriptFrom_hostExports_irrelevant (script : List Stmt) :
    ∀ (v m : JSValue) (e₁ e₂ : List (String × JSValue)), readsExports script = false →
      obsRun (runScriptFrom script v (ModState.mk m e₁))
        = obsRun (runScriptFrom script v (ModState.mk m e₂)) := by
  induction script with
  | nil => intro v m e₁ e₂ _; rfl
  | cons st rest ih =>
    intro v m e₁ e₂ h
    have hparts := readsExports_cons_false h
    cases st with
    | assignModuleExports w =>
      simpa only [runScriptFrom, runStmt] using ih w w e₁ e₂ hparts.2
    | assignExportsProp k w =>
      simpa only [runScriptFrom, runStmt] using ih w m ((k, w) :: e₁) ((k, w) :: e₂) hparts.2
    | exprExports =>
      have := hparts.1
      simp [isExportsRead] at this
    | exprModuleExports =>
      simpa only [runScriptFrom, runStmt] using ih m m e₁ e₂ hparts.2
    | expr w =>
      simpa only [runScriptFrom, runStmt] using ih w m e₁ e₂ hparts.2
    | throwErr e => rfl

theorem runScriptFrom_erase (script : List Stmt) :
    ∀ (v m : JSValue) (e : List (String × JSValue)), readsExports script = false →
      obsRun (runScriptFrom (eraseExportsWrites script) v (ModState.mk m e))
        = obsRun (runScriptFrom script v (ModState.mk m e)) := by
  induction script with
  | nil => intro v m e _; rfl
  | cons st rest ih =>
    intro v m e h
    have hparts := readsExports_cons_false h
    cases st with
    | assignModuleExports w =>
      simpa only [eraseExportsWrites, List.map_cons, runScriptFrom, runStmt]
        using ih w w e hparts.2
    | assignExportsProp k w =>
      calc obsRun (runScriptFrom (eraseExportsWrites (Stmt.assignExportsProp k w :: rest)) v
              (ModState.mk m e))
          = obsRun (runScriptFrom (eraseExportsWrites rest) w (ModState.mk m e)) := by
            simp only [eraseExportsWrites, List.map_cons, runScriptFrom, runStmt]
        _ = obsRun (runScriptFrom rest w (ModState.mk m e)) := ih w m e hparts.2
        _ = obsRun (runScriptFrom rest w (ModState.mk m ((k, w) :: e))) :=
            runScriptFrom_hostExports_irrelevant rest w m e ((k, w) :: e) hparts.2
        _ = obsRun (runScriptFrom (Stmt.assignExportsProp k w :: rest) v (ModState.mk m e)) := by
            simp only [runScriptFrom, runStmt]
    | exprExports =>
      have := hparts.1
      simp [isExportsRead] at this
    | exprModuleExports =>
      simpa only [eraseExportsWrites, List.map_cons, runScriptFrom, runStmt]
        using ih m m e hparts.2
    | expr w =>
      simpa only [eraseExportsWrites, List.map_cons, runScriptFrom, runStmt] using ih w m e hparts.2
    | throwErr e' => rfl

theorem evaluateWith_congr_obs (file : String) (s₁ s₂ : List Stmt)
    (e₁ e₂ : List (String × JSValue))
    (h : obsRun (runScript s₁ (ModState.mk initExports e₁))
        = obsRun (runScript s₂ (ModState.mk initExports e₂))) :
    evaluateCompilationResultWith e₁ file s₁ = evaluateCompilationResultWith e₂ file s₂ := by
  unfold evaluateCompilationResultWith
  by_cases hf : file = ""
  · simp [hf]
  · simp only [hf, if_false]
    rcases h₁ : runScript s₁ (ModState.mk initExports e₁) with er₁ | ⟨v₁, st₁⟩ <;>
      rcases h₂ : runScript s₂ (ModState.mk initExports e₂) with er₂ | ⟨v₂, st₂⟩ <;>
      rw [h₁, h₂] at h <;> simp only [obsRun] at h
    · cases h; rfl
    · cases h
    · cases h
    · obtain ⟨hv, _⟩ := Prod.mk.injEq .. ▸ (Except.ok.inj h)
      rw [hv]

theorem commitPages_keeps (rend : List (Option Rendered)) :
    ∀ (assets : List (String × Asset)) (name : String) (a : Asset),
      alookup name assets = some a → alookup name (commitPages rend assets) = some a := by
  induction rend with
  | nil => intro assets name a h; exact h
  | cons p rest ih =>
    intro assets name a h
    match p with
    | none => exact ih assets name a h
    | some r =>
      simp only [commitPages]
      rcases hl : alookup r.filename assets with _ | b
      · apply ih
        simp only [alookup]
        by_cases he : r.filename = name
        · rw [he, h] at hl; cases hl
        · simp [he, h]
      · exact ih assets name a h

theorem commitPages_first_wins (pre : List (Option Rendered)) :
    ∀ (p : Rendered) (post : List (Option Rendered)) (assets : List (String × Asset)),
      alookup p.filename assets = none →
      (∀ q : Rendered, some q ∈ pre → q.filename ≠ p.filename) →
      alookup p.filename (commitPages (pre ++ some p :: post) assets)
        = some (Asset.mk p.html true) := by
  induction pre with
  | nil =>
    intro p post assets h _
    simp only [List.nil_append, commitPages, h]
    apply commitPages_keeps
    simp [alookup]
  | cons q pre' ih =>
    intro p post assets h hne
    match q with
    | none =>
      exact ih p post assets h (fun q hq => hne q (List.mem_cons_of_mem _ hq))
    | some r =>
      have hr : r.filename ≠ p.filename := hne r (List.mem_cons_self _ _)
      simp only [List.cons_append, commitPages]
      rcases hl : alookup r.filename assets with _ | b
      · apply ih p post _ ?_ (fun q hq => hne q (List.mem_cons_of_mem _ hq))
        simp [alookup, hr, h]
      · exact ih p post assets h (fun q hq => hne q (List.mem_cons_of_mem _ hq))

theorem regexRelativeMatch_eq (s : String) :
    regexRelativeMatch s = (strStartsWith s "./" || strStartsWith s "../") := by
  obtain ⟨l⟩ := s
  have h₁ : ("./" : String).data = ['.', '/'] := rfl
  have h₂ : ("../" : String).data = ['.', '.', '/'] := rfl
  simp only [strStartsWith, regexRelativeMatch, h₁, h₂]
  match l with
  | [] => rfl
  | [a] =>
    simp only [List.isPrefixOf]
    cases hb : ('.' == a) <;> simp
  | a :: b :: u =>
    simp only [List.isPrefixOf]
    have hcomm : ∀ c d : Char, (c == d) = (d == c) := by
      intro c d
      cases hcd : (c == d)
      · cases hdc : (d == c)
        · rfl
        · rw [eq_of_beq hdc, beq_self_eq_true] at hcd; cases hcd
      · rw [eq_of_beq hcd, beq_self_eq_true]
    rw [hcomm '.' a, hcomm '/' b, hcomm '.' b]
    cases u with
    | nil =>
      simp only [List.isPrefixOf]
      cases ha : (a == '.') <;> cases hb : (b == '/') <;> cases hc : (b == '.') <;> simp
    | cons c w =>
      simp only [List.isPrefixOf]
      rw [hcomm '/' c]
      cases ha : (a == '.') <;> cases hb : (b == '/') <;> cases hc : (b == '.') <;>
        cases hd : (c == '/') <;> simp

/-! ## Concrete fixtures -/

/-- The fragment content of the §8 worked example, `<div>{{title}}</div>`. -/
def tplCard : String := "<div>\x7b\x7btitle\x7d\x7d</div>"

/-- The page data of the §8 worked example. -/
def dataHi : PageData := [("component", "card"), ("title", "Hi")]

/-- Call semantics for the fixtures: callable 0 returns the worked-example
data, every other callable throws `Error("boom")`. -/
def fnHi : FnSem := fun i => if i = 0 then Except.ok dataHi else Except.error (JsError.error "boom")

/-- A page script whose only statement exports callable 0. -/
def exportScript : List Stmt := [Stmt.assignModuleExports (JSValue.vfun 0)]

/-- A configuration with no `concurrency` option. -/
def cfgA : Config := Config.mk "/c" "/p" "/d" (Options.mk none)

/-- A configuration with `concurrency: 1`. -/
def cfgB : Config := Config.mk "/c" "/p" "/d" (Options.mk (some 1))

/-! ## C10 -/

/-- C10 counterexample: assignments to the sandbox `exports` object CAN
affect the value the evaluator extracts. For the real script shape
`exports.__esModule = true; exports.default = f; exports;` the evaluator
extracts the callable `f` precisely through the `exports` assignments:
erasing the assignments (keeping their completion values) flips the
outcome to the not-callable failure, and with the reading script alone the
outcome depends on the initial state of the host exports object. -/
theorem c10_counterexample :
    evaluateCompilationResult "/p/esm.js" (esmScript 0) = Except.ok (JSValue.vfun 0)
    ∧ evaluateCompilationResult "/p/esm.js" (eraseExportsWrites (esmScript 0))
        = Except.error (JsError.error "Source not produce an HTML")
    ∧ evaluateCompilationResultWith [] "/p/esm.js" [Stmt.exprExports]
        = Except.error (JsError.error "Source not produce an HTML")
    ∧ evaluateCompilationResultWith
        [("__esModule", JSValue.vbool true), ("default", JSValue.vfun 0)]
        "/p/esm.js" [Stmt.exprExports]
        = Except.ok (JSValue.vfun 0) :=
  ⟨rfl, rfl, rfl, rfl⟩

/-- C10 (amended): the injected `require` rewrites exactly the specifiers
starting with `./` or `../` to the page file's directory joined with the
specifier before delegating to the loader bound to the module identity,
and passes every other specifier unchanged. The sandbox's `exports`
binding is the evaluator host module's exports object, and assignments to
it can reach the extracted value, but only when the script reads the
`exports` object back into its completion value (the transpiled-ES-module
pattern, whose `default` the evaluator then returns); for a script that
never reads the `exports` binding, neither the object's initial state nor
the script's assignments to it affect the extracted value. -/
theorem c10_theorem :
    (∀ s : String, regexRelativeMatch s = (strStartsWith s "./" || strStartsWith s "../"))
    ∧ (∀ (loader : String → String → JSValue) (modId dirname spec : String),
        sandboxRequire loader modId dirname spec
          = loader modId
              (if strStartsWith spec "./" || strStartsWith spec "../"
               then dirname ++ "/" ++ spec else spec))
    ∧ (∀ (e₁ e₂ : List (String × JSValue)) (file : String) (script : List Stmt),
        readsExports script = false →
        evaluateCompilationResultWith e₁ file script
          = evaluateCompilationResultWith e₂ file script)
    ∧ (∀ (file : String) (script : List Stmt), readsExports script = false →
        evaluateCompilationResult file (eraseExportsWrites script)
          = evaluateCompilationResult file script)
    ∧ (∀ (file : String) (f : Nat), file ≠ "" →
        evaluateCompilationResult file (esmScript f) = Except.ok (JSValue.vfun f)) := by
  refine ⟨regexRelativeMatch_eq, ?_, ?_, ?_, ?_⟩
  · intro loader modId dirname spec
    unfold sandboxRequire
    rw [regexRelativeMatch_eq spec]
    by_cases h : (strStartsWith spec "./" || strStartsWith spec "../") = true <;> simp [h]
  · intro e₁ e₂ file script h
    exact evaluateWith_congr_obs file script script e₁ e₂
      (runScriptFrom_hostExports_irrelevant script JSValue.vundef initExports e₁ e₂ h)
  · intro file script h
    exact evaluateWith_congr_obs file (eraseExportsWrites script) script [] []
      (runScriptFrom_erase script JSValue.vundef initExports [] h)
  · intro file f hfile
    unfold evaluateCompilationResult evaluateCompilationResultWith
    rw [if_neg hfile]
    rfl

/-- C10 witness: a script that never reads `exports` evaluates the same
under two different initial exports objects and is unaffected by erasing
exports writes, while the transpiled pattern extracts its published
default. -/
theorem c10_witness :
    readsExports [Stmt.expr (JSValue.vfun 3)] = false
    ∧ evaluateCompilationResultWith [("k", JSValue.vnull)] "/p/w.js" [Stmt.expr (JSValue.vfun 3)]
        = evaluateCompilationResultWith [] "/p/w.js" [Stmt.expr (JSValue.vfun 3)]
    ∧ readsExports [Stmt.assignExportsProp "a" JSValue.vnull, Stmt.expr (JSValue.vfun 3)] = false
    ∧ evaluateCompilationResult "/p/w.js"
        (eraseExportsWrites [Stmt.assignExportsProp "a" JSValue.vnull, Stmt.expr (JSValue.vfun 3)])
        = evaluateCompilationResult "/p/w.js"
            [Stmt.assignExportsProp "a" JSValue.vnull, Stmt.expr (JSValue.vfun 3)]
    ∧ ("/p/esm.js" : String) ≠ ""
    ∧ evaluateCompilationResult "/p/esm.js" (esmScript 7) = Except.ok (JSValue.vfun 7) :=
  ⟨rfl,
    c10_theorem.2.2.1 [("k", JSValue.vnull)] [] "/p/w.js" [Stmt.expr (JSValue.vfun 3)] rfl,
    rfl,
    c10_theorem.2.2.2.1 "/p/w.js"
      [Stmt.assignExportsProp "a" JSValue.vnull, Stmt.expr (JSValue.vfun 3)] rfl,
    by decide,
    c10_theorem.2.2.2.2 "/p/esm.js" 7 (by decide)⟩

/-! ## C3 -/

/-- C3 counterexample: a script whose last statement is not the export
assignment. The module exports end up holding the callable, yet `evaluate`
does not return it — it fails, because the captured value is the completion
value `undefined` of the final statement. -/
theorem c3_counterexample :
    moduleExportsAfter [Stmt.assignModuleExports (JSValue.vfun 0), Stmt.expr JSValue.vundef]
        = Except.ok (JSValue.vfun 0)
    ∧ evaluateCompilationResult "/p/home.js"
        [Stmt.assignModuleExports (JSValue.vfun 0), Stmt.expr JSValue.vundef]
        = Except.error (JsError.error "Source not produce an HTML") :=
  ⟨rfl, rfl⟩

/-- C3 (amended): `evaluate` captures the completion value of the script's
last statement, not the module-export value; the two coincide when the
export assignment is the script's final statement, in which case the
returned callable equals the module export. -/
theorem c3_amended (file : String) (pre : List Stmt) (f : Nat)
    (hfile : file ≠ "")
    (hpre : ∃ v s, runScript pre (ModState.mk initExports []) = Except.ok (v, s)) :
    evaluateCompilationResult file (pre ++ [Stmt.assignModuleExports (JSValue.vfun f)])
        = Except.ok (JSValue.vfun f)
    ∧ moduleExportsAfter (pre ++ [Stmt.assignModuleExports (JSValue.vfun f)])
        = Except.ok (JSValue.vfun f) := by
  obtain ⟨v, s, hrun⟩ := hpre
  have happ := runScriptFrom_append pre [Stmt.assignModuleExports (JSValue.vfun f)]
    JSValue.vundef (ModState.mk initExports [])
  unfold runScript at hrun
  rw [hrun] at happ
  simp only [runScriptFrom, runStmt] at happ
  constructor
  · simp [evaluateCompilationResult, evaluateCompilationResultWith, hfile, runScript, happ,
      unwrapDefault, isCallable]
  · simp [moduleExportsAfter, runScript, happ]

/-- C3 witness: a one-statement script exporting callable 0 makes
`evaluate` return exactly that callable, which is the module export. -/
theorem c3_witness :
    ("/p/home.js" : String) ≠ ""
    ∧ (evaluateCompilationResult "/p/home.js"
          ([] ++ [Stmt.assignModuleExports (JSValue.vfun 0)]) = Except.ok (JSValue.vfun 0)
        ∧ moduleExportsAfter ([] ++ [Stmt.assignModuleExports (JSValue.vfun 0)])
          = Except.ok (JSValue.vfun 0)) :=
  ⟨by decide, c3_amended "/p/home.js" [] 0 (by decide)
    ⟨JSValue.vundef, ModState.mk initExports [], rfl⟩⟩

/-! ## C4 -/

/-- C4 counterexample: the not-callable failure carries the message
`Source not produce an HTML`, not the claimed `Source did not produce an
HTML`; moreover a `null` result fails with a `TypeError` from the
default-unwrap property access rather than with the claimed message. -/
theorem c4_counterexample :
    evaluateCompilationResult "/p/a.js" [Stmt.expr (JSValue.vobj false false JSValue.vundef)]
        = Except.error (JsError.error "Source not produce an HTML")
    ∧ ("Source not produce an HTML" : String) ≠ "Source did not produce an HTML"
    ∧ evaluateCompilationResult "/p/a.js" [Stmt.expr JSValue.vnull]
        = Except.error (JsError.typeError "Cannot read properties of null (reading __esModule)") :=
  ⟨rfl, by decide, rfl⟩

/-- C4 (amended): `evaluate` fails with message `The file is empty` when the
path argument is empty; otherwise, for a script whose run completes, a
`null` captured value fails with a `TypeError` from the default-unwrap
property access, and any other captured value fails with message
`Source not produce an HTML` exactly when its default-unwrapped form is
not callable — and is returned when it is callable. -/
theorem c4_amended (file : String) (script : List Stmt) :
    (file = "" →
      evaluateCompilationResult file script = Except.error (JsError.error "The file is empty"))
    ∧ (file ≠ "" → ∀ v s, runScript script (ModState.mk initExports []) = Except.ok (v, s) →
        (v = JSValue.vnull →
          ∃ m, evaluateCompilationResult file script = Except.error (JsError.typeError m))
        ∧ (∀ u, unwrapDefault v = Except.ok u →
            (isCallable u = true → evaluateCompilationResult file script = Except.ok u)
            ∧ (isCallable u = false →
                evaluateCompilationResult file script
                  = Except.error (JsError.error "Source not produce an HTML")))) := by
  constructor
  · intro hf
    simp [evaluateCompilationResult, evaluateCompilationResultWith, hf]
  · intro hf v s hrun
    constructor
    · intro hv
      subst hv
      refine ⟨"Cannot read properties of null (reading __esModule)", ?_⟩
      simp [evaluateCompilationResult, evaluateCompilationResultWith, hf, hrun, unwrapDefault]
    · intro u hu
      constructor <;> intro hc <;>
        simp [evaluateCompilationResult, evaluateCompilationResultWith, hf, hrun, hu, hc]

/-- C4 witness: a nonempty path and a script capturing callable 2 make
`evaluate` return that callable. -/
theorem c4_witness :
    ("/p/a.js" : String) ≠ ""
    ∧ runScript [Stmt.expr (JSValue.vfun 2)] (ModState.mk initExports [])
        = Except.ok (JSValue.vfun 2, ModState.mk initExports [])
    ∧ unwrapDefault (JSValue.vfun 2) = Except.ok (JSValue.vfun 2)
    ∧ isCallable (JSValue.vfun 2) = true
    ∧ evaluateCompilationResult "/p/a.js" [Stmt.expr (JSValue.vfun 2)]
        = Except.ok (JSValue.vfun 2) :=
  ⟨by decide, rfl, rfl, rfl,
    (((c4_amended "/p/a.js" [Stmt.expr (JSValue.vfun 2)]).2 (by decide)
        (JSValue.vfun 2) (ModState.mk initExports []) rfl).2
      (JSValue.vfun 2) rfl).1 rfl⟩

/-! ## C1 -/

/-- Pages-root contents for the C1 counterexample: `broken.js` exports
callable 1, which throws when called; its siblings export callable 0. -/
def fsC1 : FS :=
  FS.mk [("card/card.hbs", tplCard)]
    [("home.js", exportScript),
     ("broken.js", [Stmt.assignModuleExports (JSValue.vfun 1)]),
     ("other.js", exportScript)]

/-- C1 counterexample: a batch in which `broken.js` evaluates fine but its
extracted function throws `Error("boom")` when called. The exception is not
caught at the file's processing boundary: the whole pass fails, nothing is
committed (including the sibling `other.js` that follows), and the
completion callback never fires. -/
theorem c1_counterexample :
    processAssets cfgA fsC1 fnHi [] = Except.error (JsError.error "boom") := rfl

/-- C1 (amended): an exception during evaluation (step 1) is caught
per-file — the file yields `null`, one error is logged, and the entries of
the surrounding files are untouched — and the pass then completes exactly
when the render phase raises nothing; an exception thrown when an extracted
function is called (step 2) escapes the render phase and makes the pass
fail with it, the completion callback never firing. -/
theorem c1_amended (cfg : Config) (fs : FS) (fnSem : FnSem)
    (assets : List (String × Asset))
    (pre post : List (String × List Stmt)) (badF : String) (badS : List Stmt) (e : JsError)
    (hsplit : globJs fs.pagesFiles = pre ++ (badF, badS) :: post)
    (hund : strStartsWith badF "_" = false)
    (heval : evaluateCompilationResult (resolve cfg.pagesDir badF) badS = Except.error e) :
    (readPages cfg.pagesDir (globJs fs.pagesFiles)).1
        = (readPages cfg.pagesDir pre).1 ++ none :: (readPages cfg.pagesDir post).1
    ∧ (badF, e) ∈ (readPages cfg.pagesDir (globJs fs.pagesFiles)).2
    ∧ (∀ reg rend, registerComponents (globHbs fs.componentsFiles) [] = Except.ok reg →
        renderPages fnSem reg cfg.destDir (readPages cfg.pagesDir (globJs fs.pagesFiles)).1
            = Except.ok rend →
        processAssets cfg fs fnSem assets
          = Except.ok (PassResult.mk (concurrencyCap cfg.options) [] reg
              (readPages cfg.pagesDir (globJs fs.pagesFiles)).2 (commitPages rend assets) true))
    ∧ (∀ reg e', registerComponents (globHbs fs.componentsFiles) [] = Except.ok reg →
        renderPages fnSem reg cfg.destDir (readPages cfg.pagesDir (globJs fs.pagesFiles)).1
            = Except.error e' →
        processAssets cfg fs fnSem assets = Except.error e') := by
  refine ⟨?_, ?_, ?_, ?_⟩
  · rw [hsplit]
    simp [readPages, processPageFile, hund, heval]
  · rw [hsplit]
    simp only [readPages, List.filterMap_append, List.filterMap_cons]
    simp only [processPageFile, hund, Bool.false_eq_true, if_false, heval]
    exact List.mem_append_right _ (List.mem_cons_self _ _)
  · intro reg rend hreg hrend
    simp only [processAssets, hreg, hrend, pLimit]
  · intro reg e' hreg hrend
    simp only [processAssets, hreg, hrend]

/-- Pages-root contents for the C1 witness: `bad.js` fails evaluation (its
completion value is not callable), its siblings evaluate and render fine. -/
def fsW1 : FS :=
  FS.mk [("card/card.hbs", tplCard)]
    [("a.js", exportScript), ("bad.js", [Stmt.expr JSValue.vundef]), ("c.js", exportScript)]

/-- C1 witness: in `fsW1` the evaluation failure of `bad.js` is isolated —
it yields `null` and one log entry — and the pass completes with the
callback fired, committing both siblings. -/
theorem c1_witness :
    globJs fsW1.pagesFiles
        = [("a.js", exportScript)] ++ ("bad.js", [Stmt.expr JSValue.vundef])
            :: [("c.js", exportScript)]
    ∧ strStartsWith "bad.js" "_" = false
    ∧ evaluateCompilationResult (resolve cfgA.pagesDir "bad.js") [Stmt.expr JSValue.vundef]
        = Except.error (JsError.error "Source not produce an HTML")
    ∧ ((readPages cfgA.pagesDir (globJs fsW1.pagesFiles)).1
        = (readPages cfgA.pagesDir [("a.js", exportScript)]).1
            ++ none :: (readPages cfgA.pagesDir [("c.js", exportScript)]).1
      ∧ ("bad.js", JsError.error "Source not produce an HTML")
          ∈ (readPages cfgA.pagesDir (globJs fsW1.pagesFiles)).2
      ∧ (∀ reg rend, registerComponents (globHbs fsW1.componentsFiles) [] = Except.ok reg →
          renderPages fnHi reg cfgA.destDir (readPages cfgA.pagesDir (globJs fsW1.pagesFiles)).1
              = Except.ok rend →
          processAssets cfgA fsW1 fnHi []
            = Except.ok (PassResult.mk (concurrencyCap cfgA.options) [] reg
                (readPages cfgA.pagesDir (globJs fsW1.pagesFiles)).2 (commitPages rend []) true))
      ∧ (∀ reg e', registerComponents (globHbs fsW1.componentsFiles) [] = Except.ok reg →
          renderPages fnHi reg cfgA.destDir (readPages cfgA.pagesDir (globJs fsW1.pagesFiles)).1
              = Except.error e' →
          processAssets cfgA fsW1 fnHi [] = Except.error e')) :=
  ⟨rfl, rfl, rfl,
    c1_amended cfgA fsW1 fnHi [] [("a.js", exportScript)] [("c.js", exportScript)]
      "bad.js" [Stmt.expr JSValue.vundef] (JsError.error "Source not produce an HTML")
      rfl rfl rfl⟩

/-! ## C2 -/

/-- Ten page files, each exporting callable 0, for the C2 counterexample. -/
def fsC2 : FS :=
  FS.mk [("card/card.hbs", tplCard)]
    ((List.range 10).map (fun n => (toString n ++ "p.js", exportScript)))

/-- C2 counterexample: with `concurrency: 1` and ten pages, all ten pages
are built in one pass, yet not a single page build was submitted through
the limiter — the pipeline never uses it, so the number of submitted tasks
(zero) differs from the number of page builds (ten). -/
theorem c2_counterexample :
    ∃ r, processAssets cfgB fsC2 fnHi [] = Except.ok r
      ∧ r.assets.length = 10
      ∧ r.limiterSubmitted = []
      ∧ r.limiterSubmitted.length ≠ r.assets.length :=
  ⟨_, rfl, rfl, rfl, by decide⟩

/-- C2 (amended): a limiter is created with cap `options.concurrency` when
that is set and nonzero and `100` otherwise (in particular when the option
is absent), but no page build is ever submitted through it — whenever the
pass completes, the list of tasks submitted to the limiter is empty; page
builds run synchronously inside the pass. -/
theorem c2_amended (cfg : Config) (fs : FS) (fnSem : FnSem) (assets : List (String × Asset))
    (r : PassResult) (h : processAssets cfg fs fnSem assets = Except.ok r) :
    r.limiterSubmitted = []
    ∧ (cfg.options.concurrency = none → r.limiterCap = 100)
    ∧ (cfg.options.concurrency = some 0 → r.limiterCap = 100)
    ∧ (∀ n, cfg.options.concurrency = some n → n ≠ 0 → r.limiterCap = n) := by
  simp only [processAssets] at h
  split at h
  · cases h
  · split at h
    · cases h
    · obtain rfl := (Except.ok.inj h)
      refine ⟨rfl, ?_, ?_, ?_⟩
      · intro hc; simp [pLimit, concurrencyCap, hc]
      · intro hc; simp [pLimit, concurrencyCap, hc]
      · intro n hc hn; simp [pLimit, concurrencyCap, hc, hn]

/-- C2 witness: an empty pass with `concurrency: 1` completes with an
unused limiter of cap 1. -/
theorem c2_witness :
    processAssets cfgB (FS.mk [] []) fnHi [] = Except.ok (PassResult.mk 1 [] [] [] [] true)
    ∧ ((PassResult.mk 1 [] [] [] [] true).limiterSubmitted = []
      ∧ (cfgB.options.concurrency = none → (PassResult.mk 1 [] [] [] [] true).limiterCap = 100)
      ∧ (cfgB.options.concurrency = some 0 → (PassResult.mk 1 [] [] [] [] true).limiterCap = 100)
      ∧ (∀ n, cfgB.options.concurrency = some n → n ≠ 0 →
          (PassResult.mk 1 [] [] [] [] true).limiterCap = n)) :=
  ⟨rfl, c2_amended cfgB (FS.mk [] []) fnHi [] (PassResult.mk 1 [] [] [] [] true) rfl⟩

/-! ## C5 -/

/-- A pages root holding only the nested underscore file of the testable
property of §8, with a script that fails evaluation. -/
def fsC5 : FS := FS.mk [] [("shared/_helper.js", [Stmt.expr JSValue.vundef])]

/-- C5 counterexample: `shared/_helper.js` — whose base name begins with an
underscore — is not excluded: the relative path does not start with `_`,
so the file is evaluated and appears in the error log as a failed page. -/
theorem c5_counterexample :
    ∃ r, processAssets cfgA fsC5 fnHi [] = Except.ok r
      ∧ r.errorLog = [("shared/_helper.js", JsError.error "Source not produce an HTML")]
      ∧ "shared/_helper.js" ∈ evaluatedFiles (globJs fsC5.pagesFiles) :=
  ⟨_, rfl, rfl, by decide⟩

/-- C5 (amended): a page file is excluded exactly when its path relative to
the pages root begins with an underscore: such a file yields `null`
(produces nothing downstream — `null` entries render to `null` and commit
no asset), every error-log entry belongs to a file whose relative path does
not begin with `_`, and only such files are ever evaluated. -/
theorem c5_amended (pagesDir : String) (pre post : List (String × List Stmt))
    (file : String) (script : List Stmt)
    (hus : strStartsWith file "_" = true) :
    (readPages pagesDir (pre ++ (file, script) :: post)).1
        = (readPages pagesDir pre).1 ++ none :: (readPages pagesDir post).1
    ∧ (∀ f e, (f, e) ∈ (readPages pagesDir (pre ++ (file, script) :: post)).2 →
        strStartsWith f "_" = false)
    ∧ (∀ f, f ∈ evaluatedFiles (pre ++ (file, script) :: post) → strStartsWith f "_" = false)
    ∧ (∀ (fnSem : FnSem) reg destDir rest, renderPages fnSem reg destDir (none :: rest)
        = match renderPages fnSem reg destDir rest with
          | Except.error e => Except.error e
          | Except.ok l => Except.ok (none :: l))
    ∧ (∀ rest (assets : List (String × Asset)),
        commitPages (none :: rest) assets = commitPages rest assets) := by
  refine ⟨?_, ?_, ?_, ?_, ?_⟩
  · simp [readPages, processPageFile, hus]
  · intro f e hmem
    simp only [readPages, List.mem_filterMap] at hmem
    obtain ⟨g, _, hpf⟩ := hmem
    by_cases hg : strStartsWith g.1 "_" = true
    · simp [processPageFile, hg] at hpf
    · have hg' : strStartsWith g.1 "_" = false := by
        cases hb : strStartsWith g.1 "_"
        · rfl
        · exact absurd hb hg
      rcases hev : evaluateCompilationResult (resolve pagesDir g.1) g.2 with e' | v
      · simp only [processPageFile, hg', Bool.false_eq_true, if_false, hev] at hpf
        obtain ⟨h1, _⟩ := Prod.mk.injEq .. ▸ (Option.some.inj hpf)
        rw [← h1]; exact hg'
      · rcases hm : matchLeadingNonDot g.1 with _ | nm
        · simp only [processPageFile, hg', Bool.false_eq_true, if_false, hev, hm] at hpf
          obtain ⟨h1, _⟩ := Prod.mk.injEq .. ▸ (Option.some.inj hpf)
          rw [← h1]; exact hg'
        · simp [processPageFile, hg', hev, hm] at hpf
  · intro f hf
    simp only [evaluatedFiles, List.mem_map, List.mem_filter] at hf
    obtain ⟨g, ⟨_, hfilt⟩, rfl⟩ := hf
    cases hb : strStartsWith g.1 "_"
    · rfl
    · rw [hb] at hfilt; cases hfilt
  · intro fnSem reg destDir rest; rfl
  · intro rest assets; rfl

/-- C5 witness: with `_x.js` between two ordinary pages, the underscore
file yields `null`, no log entry names an underscore-prefixed path, and
only non-underscore paths are evaluated. -/
theorem c5_witness :
    strStartsWith "_x.js" "_" = true
    ∧ ((readPages "/p" ([("a.js", exportScript)] ++ ("_x.js", exportScript)
            :: [("c.js", exportScript)])).1
        = (readPages "/p" [("a.js", exportScript)]).1
            ++ none :: (readPages "/p" [("c.js", exportScript)]).1
      ∧ (∀ f e, (f, e) ∈ (readPages "/p" ([("a.js", exportScript)] ++ ("_x.js", exportScript)
            :: [("c.js", exportScript)])).2 → strStartsWith f "_" = false)
      ∧ (∀ f, f ∈ evaluatedFiles ([("a.js", exportScript)] ++ ("_x.js", exportScript)
            :: [("c.js", exportScript)]) → strStartsWith f "_" = false)
      ∧ (∀ (fnSem : FnSem) reg destDir rest, renderPages fnSem reg destDir (none :: rest)
          = match renderPages fnSem reg destDir rest with
            | Except.error e => Except.error e
            | Except.ok l => Except.ok (none :: l))
      ∧ (∀ rest (assets : List (String × Asset)),
          commitPages (none :: rest) assets = commitPages rest assets)) :=
  ⟨rfl, c5_amended "/p" [("a.js", exportScript)] [("c.js", exportScript)]
    "_x.js" exportScript rfl⟩

/-! ## C6 -/

/-- C6: committing rendered pages never touches an asset whose filename is
already present — its stored content and info stay exactly as they were —
while a filename not yet present is emitted with `created = true`; in
particular when several pages of one pass produce the same filename, the
first non-null one wins and later ones are skipped. -/
theorem c6_theorem (assets : List (String × Asset)) (rend : List (Option Rendered)) :
    (∀ name a, alookup name assets = some a →
        alookup name (commitPages rend assets) = some a)
    ∧ (∀ pre p post, rend = pre ++ some p :: post →
        alookup p.filename assets = none →
        (∀ q : Rendered, some q ∈ pre → q.filename ≠ p.filename) →
        alookup p.filename (commitPages rend assets) = some (Asset.mk p.html true)) := by
  refine ⟨fun name a h => commitPages_keeps rend assets name a h, ?_⟩
  intro pre p post hr h hne
  rw [hr]
  exact commitPages_first_wins pre p post assets h hne

/-- A pre-existing asset plus three rendered pages, two of which collide on
`y.html`, for the C6 witness. -/
def rx : Rendered := Rendered.mk "x.html" "/d/x.html" "new"

def ryA : Rendered := Rendered.mk "y.html" "/d/y.html" "A"

def ryB : Rendered := Rendered.mk "y.html" "/d/y2.html" "B"

def assets6 : List (String × Asset) := [("x.html", Asset.mk "old" false)]

def rend6 : List (Option Rendered) := [some rx, some ryA, none, some ryB]

/-- C6 witness: the pre-existing `x.html` keeps its old content even though
a page renders it anew, and of the two colliding `y.html` pages the first
wins with `created = true`. -/
theorem c6_witness :
    alookup "x.html" assets6 = some (Asset.mk "old" false)
    ∧ alookup "x.html" (commitPages rend6 assets6) = some (Asset.mk "old" false)
    ∧ rend6 = [some rx] ++ some ryA :: [none, some ryB]
    ∧ alookup ryA.filename assets6 = none
    ∧ alookup ryA.filename (commitPages rend6 assets6) = some (Asset.mk ryA.html true) :=
  ⟨rfl, (c6_theorem assets6 rend6).1 "x.html" (Asset.mk "old" false) rfl, rfl, rfl,
    (c6_theorem assets6 rend6).2 [some rx] ryA [none, some ryB] rfl rfl
      (by
        intro q hq
        have hqx : q = rx := by
          rcases List.mem_cons.mp hq with h | h
          · exact Option.some.inj h
          · cases h
        subst hqx
        decide)⟩

/-! ## C7 -/

/-- The §8 worked example exactly as the spec states it: the fragment file
sits at the top level of the components root. -/
def fsC7bad : FS := FS.mk [("card.hbs", tplCard)] [("home.js", exportScript)]

/-- The worked example with the fragment moved into a `card/` directory,
so that its leading path segment is `card`. -/
def fsC7good : FS := FS.mk [("card/card.hbs", tplCard)] [("home.js", exportScript)]

/-- C7 counterexample: with the fragment at top-level `card.hbs`, the
registration name — the leading `/`-delimited segment of the relative
path — is `card.hbs`, not `card`; the page's `{{> card}}` template cannot
find the partial, the render throws, the pass aborts and no `home.html` is
emitted. -/
theorem c7_counterexample :
    registerComponents (globHbs fsC7bad.componentsFiles) []
        = Except.ok [("card.hbs", tplCard)]
    ∧ ("card.hbs" : String) ≠ "card"
    ∧ processAssets cfgA fsC7bad fnHi []
        = Except.error (JsError.error "The partial card could not be found") :=
  ⟨rfl, by decide, rfl⟩

/-- C7 (amended): with the fragment file at `card/card.hbs` — leading path
segment `card` — the worked example goes through: the fragment is
registered under `card` and the pass emits `home.html` containing
`<div>Hi</div>`. -/
theorem c7_theorem :
    ∃ r, processAssets cfgA fsC7good fnHi [] = Except.ok r
      ∧ alookup "card" r.hbRegistry = some tplCard
      ∧ alookup "home.html" r.assets = some (Asset.mk "<div>Hi</div>" true) :=
  ⟨_, rfl, rfl, rfl⟩

/-! ## C8 -/

/-- A pages root with a single page in a subdirectory. -/
def fsC8 : FS := FS.mk [("card/card.hbs", tplCard)] [("sub/home.js", exportScript)]

/-- C8 counterexample: for the page file `sub/home.js` the emitted output
is `sub/home.html` — the leading non-dot run of the relative path keeps the
directory — and no `home.html` (the base name up to the first dot) is
produced. -/
theorem c8_counterexample :
    ∃ r, processAssets cfgA fsC8 fnHi [] = Except.ok r
      ∧ alookup "sub/home.html" r.assets = some (Asset.mk "<div>Hi</div>" true)
      ∧ alookup "home.html" r.assets = none :=
  ⟨_, rfl, rfl, rfl⟩

/-- C8 (amended): the page name of a processed page file is its path
relative to the pages root up to the first `.` — which equals the base name
up to the first dot only for top-level files — and the single output the
build step produces for it is named `<pageName>.html` (with the
destination-root path alongside). -/
theorem c8_amended (pagesDir : String) (file : String) (script : List Stmt) (v : JSValue)
    (nm : String)
    (hund : strStartsWith file "_" = false)
    (heval : evaluateCompilationResult (resolve pagesDir file) script = Except.ok v)
    (hnm : matchLeadingNonDot file = some nm) :
    (processPageFile pagesDir (file, script)).1 = some (PageEntry.mk nm v)
    ∧ nm = String.mk (file.data.takeWhile (fun c => !(c == '.')))
    ∧ (∀ (fnSem : FnSem) reg destDir r,
        buildPage fnSem reg destDir (PageEntry.mk nm v) = Except.ok r →
        r.filename = nm ++ ".html" ∧ r.absoluteFilename = resolve destDir nm ++ ".html") := by
  refine ⟨?_, ?_, ?_⟩
  · simp [processPageFile, hund, heval, hnm]
  · simp only [matchLeadingNonDot] at hnm
    split at hnm
    · cases hnm
    · exact (Option.some.inj hnm).symm
  · intro fnSem reg destDir r h
    simp only [buildPage] at h
    split at h
    · cases h
    · split at h
      · cases h
      · obtain rfl := Except.ok.inj h
        exact ⟨rfl, rfl⟩

/-- C8 witness: the subdirectory page `sub/home.js` gets page name
`sub/home` and output `sub/home.html`. -/
theorem c8_witness :
    strStartsWith "sub/home.js" "_" = false
    ∧ evaluateCompilationResult (resolve "/p" "sub/home.js") exportScript
        = Except.ok (JSValue.vfun 0)
    ∧ matchLeadingNonDot "sub/home.js" = some "sub/home"
    ∧ ((processPageFile "/p" ("sub/home.js", exportScript)).1
          = some (PageEntry.mk "sub/home" (JSValue.vfun 0))
      ∧ ("sub/home" : String)
          = String.mk ("sub/home.js".data.takeWhile (fun c => !(c == '.')))
      ∧ (∀ (fnSem : FnSem) reg destDir r,
          buildPage fnSem reg destDir (PageEntry.mk "sub/home" (JSValue.vfun 0)) = Except.ok r →
          r.filename = "sub/home" ++ ".html"
            ∧ r.absoluteFilename = resolve destDir "sub/home" ++ ".html")) :=
  ⟨rfl, rfl, rfl,
    c8_amended "/p" "sub/home.js" exportScript (JSValue.vfun 0) "sub/home" rfl rfl rfl⟩

/-! ## C9 -/

/-- A pages root holding a single non-`.js` file. -/
def fsC9 : FS := FS.mk [] [("notes.txt", [])]

/-- C9 counterexample: `notes.txt` lies under the pages root, yet the
recorded dependency set of the pass is empty — only `.js` files under the
pages root (and `.hbs` files under the components root) are recorded. -/
theorem c9_counterexample :
    ("notes.txt", ([] : List Stmt)) ∈ fsC9.pagesFiles
    ∧ recordDependencies cfgA fsC9 = []
    ∧ resolve cfgA.pagesDir "notes.txt" ∉ recordDependencies cfgA fsC9 :=
  ⟨List.mem_cons_self _ _, rfl, List.not_mem_nil _⟩

/-- C9 (amended): the recorded dependency set contains the absolute path of
every `.js` file under the pages root and of every `.hbs` file under the
components root — with no regard to how (or whether) the file was
processed, since the recording re-scans the roots independently. -/
theorem c9_amended (cfg : Config) (fs : FS) :
    (∀ f s, (f, s) ∈ fs.pagesFiles → strEndsWith f ".js" = true →
        resolve cfg.pagesDir f ∈ recordDependencies cfg fs)
    ∧ (∀ f c, (f, c) ∈ fs.componentsFiles → strEndsWith f ".hbs" = true →
        resolve cfg.componentsDir f ∈ recordDependencies cfg fs) := by
  constructor
  · intro f s hmem hjs
    simp only [recordDependencies]
    apply List.mem_append_left
    simp only [globJs, List.mem_map]
    refine ⟨(f, s), ?_, rfl⟩
    simp [List.mem_filter, hmem, hjs]
  · intro f c hmem hhbs
    simp only [recordDependencies]
    apply List.mem_append_right
    simp only [globHbs, List.mem_map]
    refine ⟨(f, c), ?_, rfl⟩
    simp [List.mem_filter, hmem, hhbs]

/-- Roots holding a failing page, a non-`.js` file and a fragment, for the
C9 witness. -/
def fsW9 : FS :=
  FS.mk [("card/x.hbs", tplCard)]
    [("a.js", [Stmt.expr JSValue.vundef]), ("notes.txt", [])]

/-- C9 witness: the `.js` page (which fails evaluation) and the `.hbs`
fragment of `fsW9` both land in the recorded dependency set. -/
theorem c9_witness :
    ("a.js", [Stmt.expr JSValue.vundef]) ∈ fsW9.pagesFiles
    ∧ strEndsWith "a.js" ".js" = true
    ∧ resolve cfgA.pagesDir "a.js" ∈ recordDependencies cfgA fsW9
    ∧ ("card/x.hbs", tplCard) ∈ fsW9.componentsFiles
    ∧ strEndsWith "card/x.hbs" ".hbs" = true
    ∧ resolve cfgA.componentsDir "card/x.hbs" ∈ recordDependencies cfgA fsW9 :=
  ⟨List.mem_cons_self _ _, rfl,
    (c9_amended cfgA fsW9).1 "a.js" [Stmt.expr JSValue.vundef] (List.mem_cons_self _ _) rfl,
    List.mem_cons_self _ _, rfl,
    (c9_amended cfgA fsW9).2 "card/x.hbs" tplCard (List.mem_cons_self _ _) rfl⟩

end StaticPages
